import Mathlib

/-!
Verification of the core of the assistive OCR/TTS streaming pipeline.

The development shallowly embeds the pure decision logic of the three-stage
pipeline (`src/core/pipeline.py`), the OCR fusion and plausibility filtering
(`src/core/ocr_engine.py`) and the speech fallback logic
(`src/core/tts_engine.py`).  Text is modelled as `List Char`, wall-clock
times and confidences as `ℚ`, and each side-effecting loop as an explicit
state-transition function folded over its inputs.
-/

namespace OCREngine

/-- Whitespace stripping from both ends of a character list, modelling Python
`str.strip()` as used by `_is_plausible_text` (src/core/ocr_engine.py:115). -/
def stripChars (s : List Char) : List Char :=
  ((s.dropWhile Char.isWhitespace).reverse.dropWhile Char.isWhitespace).reverse

/-- Plausibility filter, translated from `OCREngine._is_plausible_text`
(src/core/ocr_engine.py:107-124): reject empty text; reject when the stripped
length is below `minTextLen`; accept when some stripped character is
alphanumeric; otherwise reject. -/
def isPlausibleText (minTextLen : Nat) (text : List Char) : Bool :=
  if text.isEmpty then false
  else
    let stripped := stripChars text
    if stripped.length < minTextLen then false
    else if stripped.any Char.isAlphanum then true
    else false

theorem whitespace_not_alnum (c : Char) (h : c.isWhitespace = true) :
    c.isAlphanum = false := by
  simp only [Char.isWhitespace, Bool.or_eq_true, decide_eq_true_eq] at h
  rcases h with ((h | h) | h) | h <;> subst h <;> decide

theorem any_alnum_dropWhile_whitespace (l : List Char) :
    (l.dropWhile Char.isWhitespace).any Char.isAlphanum
      = l.any Char.isAlphanum := by
  induction l with
  | nil => rfl
  | cons c cs ih =>
    by_cases hc : c.isWhitespace = true
    · simp [List.dropWhile, hc, ih, whitespace_not_alnum c hc]
    · simp [List.dropWhile, hc]

theorem any_alnum_stripChars (l : List Char) :
    (stripChars l).any Char.isAlphanum = l.any Char.isAlphanum := by
  unfold stripChars
  rw [List.any_reverse, any_alnum_dropWhile_whitespace, List.any_reverse,
    any_alnum_dropWhile_whitespace]

/-- C2: the plausibility filter rejects a string iff its stripped length is
below `min_text_len` or the string contains no alphanumeric character; with
`min_text_len = 2`, "!!!" is rejected and "ok" is accepted. -/
theorem plausibility_reject_iff :
    (∀ (minTextLen : Nat) (t : List Char),
        isPlausibleText minTextLen t = false ↔
          ((stripChars t).length < minTextLen ∨
            t.any Char.isAlphanum = false)) ∧
    isPlausibleText 2 ['!', '!', '!'] = false ∧
    isPlausibleText 2 ['o', 'k'] = true := by
  refine ⟨?_, by decide, by decide⟩
  intro minTextLen t
  by_cases h0 : t.isEmpty
  · have ht : t = [] := by simpa [List.isEmpty_iff] using h0
    subst ht
    simp [isPlausibleText, stripChars]
  · by_cases h1 : (stripChars t).length < minTextLen
    · simp [isPlausibleText, h0, h1]
    · by_cases h2 : (stripChars t).any Char.isAlphanum = true
      · have h2t : t.any Char.isAlphanum = true := by
          rw [← any_alnum_stripChars]; exact h2
        simp [isPlausibleText, h0, h1, h2, h2t]
      · have h2f : (stripChars t).any Char.isAlphanum = false := by
          simpa using h2
        have h2t : t.any Char.isAlphanum = false := by
          rw [← any_alnum_stripChars]; exact h2f
        simp [isPlausibleText, h0, h1, h2f, h2t]

/-- Surviving OCR candidate: the recognized text together with the backend
confidence, as produced by the per-backend wrappers feeding
`extract_text` (src/core/ocr_engine.py:277-300). -/
structure Candidate where
  text : List Char
  conf : ℚ
deriving DecidableEq

/-- Strict ordering on candidates used by fusion: by text length, then by
confidence, matching the key `(len(rc[0].text or ""), rc[1])` of the `max`
call in `extract_text` (src/core/ocr_engine.py:306-309). -/
def candLt (a b : Candidate) : Prop :=
  a.text.length < b.text.length ∨
    (a.text.length = b.text.length ∧ a.conf < b.conf)

instance : DecidableRel candLt := fun a b => by
  unfold candLt; infer_instance

/-- Fusion selection over the non-empty candidate list, translated from
`max(candidates, key=lambda rc: (len(rc[0].text or ""), rc[1]))` in
`OCREngine.extract_text` (src/core/ocr_engine.py:306-309).  The fold keeps
the current best and replaces it only on a strictly greater key, matching
CPython `max` (the first maximal element wins). -/
def selectBest (c : Candidate) (cs : List Candidate) : Candidate :=
  cs.foldl (fun best x => if candLt best x then x else best) c

theorem candLt_irrefl (a : Candidate) : ¬ candLt a a := by
  rintro (h | ⟨-, h⟩) <;> exact lt_irrefl _ h

theorem candLt_trans {a b c : Candidate}
    (h1 : candLt a b) (h2 : candLt b c) : candLt a c := by
  rcases h1 with h1 | ⟨e1, h1⟩ <;> rcases h2 with h2 | ⟨e2, h2⟩
  · exact Or.inl (lt_trans h1 h2)
  · exact Or.inl (e2 ▸ h1)
  · exact Or.inl (e1 ▸ h2)
  · exact Or.inr ⟨e1.trans e2, lt_trans h1 h2⟩

theorem candLt_trichotomy (a b : Candidate) :
    candLt a b ∨
      (a.text.length = b.text.length ∧ a.conf = b.conf) ∨ candLt b a := by
  rcases lt_trichotomy a.text.length b.text.length with h | h | h
  · exact Or.inl (Or.inl h)
  · rcases lt_trichotomy a.conf b.conf with h2 | h2 | h2
    · exact Or.inl (Or.inr ⟨h, h2⟩)
    · exact Or.inr (Or.inl ⟨h, h2⟩)
    · exact Or.inr (Or.inr (Or.inr ⟨h.symm, h2⟩))
  · exact Or.inr (Or.inr (Or.inl h))

theorem not_candLt_of_not_of_not {a b c : Candidate}
    (h1 : ¬ candLt a b) (h2 : ¬ candLt b c) : ¬ candLt a c := by
  intro h
  rcases candLt_trichotomy b c with hbc | ⟨el, ec⟩ | hcb
  · exact h2 hbc
  · refine h1 ?_
    rcases h with h | ⟨e, h⟩
    · exact Or.inl (el ▸ h)
    · exact Or.inr ⟨e.trans el.symm, ec ▸ h⟩
  · exact h1 (candLt_trans h hcb)

theorem selectBest_spec (c : Candidate) (cs : List Candidate) :
    selectBest c cs ∈ c :: cs ∧
      ∀ x ∈ c :: cs, ¬ candLt (selectBest c cs) x := by
  induction cs generalizing c with
  | nil =>
    refine ⟨List.mem_cons_self _ _, ?_⟩
    intro x hx
    rcases List.mem_cons.mp hx with rfl | hx
    · exact candLt_irrefl _
    · cases hx
  | cons y ys ih =>
    have hstep :
        selectBest c (y :: ys) = selectBest (if candLt c y then y else c) ys :=
      rfl
    by_cases hcy : candLt c y
    · rw [hstep, if_pos hcy]
      obtain ⟨hmem, hmax⟩ := ih y
      refine ⟨?_, ?_⟩
      · exact List.mem_cons_of_mem _ hmem
      · intro x hx
        rcases List.mem_cons.mp hx with rfl | hx2
        · intro hcon
          exact hmax y (List.mem_cons_self _ _) (candLt_trans hcon hcy)
        · exact hmax x hx2
    · rw [hstep, if_neg hcy]
      obtain ⟨hmem, hmax⟩ := ih c
      refine ⟨?_, ?_⟩
      · rcases List.mem_cons.mp hmem with h | h
        · rw [h]; exact List.mem_cons_self _ _
        · exact List.mem_cons_of_mem _ (List.mem_cons_of_mem _ h)
      · intro x hx
        rcases List.mem_cons.mp hx with rfl | hx2
        · exact hmax x (List.mem_cons_self _ _)
        · rcases List.mem_cons.mp hx2 with rfl | hx3
          · exact not_candLt_of_not_of_not
              (hmax c (List.mem_cons_self _ _)) hcy
          · exact hmax x (List.mem_cons_of_mem _ hx3)

/-- C1: fusion selects a candidate that is maximal by text length descending
with confidence descending as tie-break, and on the candidate list
[("a", 0.9), ("abcdef", 0.5)] it selects "abcdef". -/
theorem fusion_selects_maximal :
    (∀ (c : Candidate) (cs : List Candidate),
        selectBest c cs ∈ c :: cs ∧
          ∀ x ∈ c :: cs, ¬ candLt (selectBest c cs) x) ∧
    (selectBest ⟨['a'], 9/10⟩ [⟨['a','b','c','d','e','f'], 1/2⟩]).text
      = ['a','b','c','d','e','f'] := by
  refine ⟨selectBest_spec, ?_⟩
  decide

/-- Witness for `fusion_selects_maximal`: at the concrete two-candidate
input, the selected candidate is not beaten by the first candidate. -/
theorem fusion_selects_maximal_witness :
    ¬ candLt (selectBest ⟨['a'], 9/10⟩ [⟨['a','b','c','d','e','f'], 1/2⟩])
        ⟨['a'], 9/10⟩ :=
  (fusion_selects_maximal.1 _ _).2 _ (List.mem_cons_self _ _)

end OCREngine

namespace Pipeline

/-- Externally supplied configuration options recognized by the core, as
listed by the spec; the pipeline reads them out of the nested `cfg`
dictionary (src/core/pipeline.py:67,108-109,143 and src/core/config.py). -/
structure RecognizedOptions where
  captureInterval : ℚ
  minConfidence : ℚ
  minTextLen : Nat
  debounceWindow : ℚ
  maxHistory : Nat
deriving DecidableEq

/-- One OCR outcome as consumed by the process loop: selected text, backend
tag and confidence (`OCRResult` of src/core/ocr_engine.py:24-29). -/
structure OcrOutcome where
  text : List Char
  engine : List Char
  confidence : ℚ
deriving DecidableEq

/-- History entry appended by `_process_loop` (src/core/pipeline.py:137-142). -/
structure HistEntry where
  ts : ℚ
  text : List Char
  engine : List Char
  confidence : ℚ
deriving DecidableEq

/-- Mutable recognition-stage state: debounce bookkeeping (`last_text`,
`last_time`), the status field `self.last_text`, the shared history and the
unbounded FIFO text queue feeding the speech stage. -/
structure ProcState where
  lastText : List Char
  lastTime : ℚ
  statusText : List Char
  history : List HistEntry
  textQ : List (List Char)
deriving DecidableEq

/-- Debounce window used by `_process_loop`: the hard-coded literal `1.5`
seconds of src/core/pipeline.py:132, independent of any configuration. -/
def debounceWindow (_cfg : RecognizedOptions) : ℚ := 3/2

/-- History append with bounded-capacity eviction, translated from
src/core/pipeline.py:137-144: append, then `pop(0)` when the length exceeds
`max_history`. -/
def pushHistory (maxHistory : Nat) (h : List HistEntry) (e : HistEntry) :
    List HistEntry :=
  if maxHistory < (h ++ [e]).length then (h ++ [e]).tail else h ++ [e]

/-- One iteration body of `_process_loop` on a dequeued frame's OCR outcome
at wall-clock time `now`, translated from src/core/pipeline.py:120-149:
strip the text; drop it when empty, shorter than `min_text_len` or below
`min_confidence`; suppress a repeat of the last accepted text arriving
within the debounce window; otherwise append to history with eviction,
update the debounce bookkeeping and status field, and push the text onto
the text queue. -/
def processStep (cfg : RecognizedOptions) (s : ProcState) (r : OcrOutcome)
    (now : ℚ) : ProcState :=
  if (OCREngine.stripChars r.text).isEmpty then s
  else if (OCREngine.stripChars r.text).length < cfg.minTextLen then s
  else if r.confidence < cfg.minConfidence then s
  else if OCREngine.stripChars r.text = s.lastText ∧
      now - s.lastTime < debounceWindow cfg then s
  else
    { lastText := OCREngine.stripChars r.text
      lastTime := now
      statusText := OCREngine.stripChars r.text
      history := pushHistory cfg.maxHistory s.history
        ⟨now, OCREngine.stripChars r.text, r.engine, r.confidence⟩
      textQ := s.textQ ++ [OCREngine.stripChars r.text] }

theorem processStep_suppress (cfg : RecognizedOptions) (s : ProcState)
    (r : OcrOutcome) (now : ℚ)
    (h1 : OCREngine.stripChars r.text = s.lastText)
    (h2 : now - s.lastTime < debounceWindow cfg) :
    processStep cfg s r now = s := by
  unfold processStep
  split_ifs with g1 g2 g3 g4
  · rfl
  · rfl
  · rfl
  · rfl
  · exact absurd ⟨h1, h2⟩ g4

theorem processStep_accept (cfg : RecognizedOptions) (s : ProcState)
    (r : OcrOutcome) (now : ℚ)
    (he : (OCREngine.stripChars r.text).isEmpty = false)
    (hlen : ¬ (OCREngine.stripChars r.text).length < cfg.minTextLen)
    (hconf : ¬ r.confidence < cfg.minConfidence)
    (hdeb : ¬ (OCREngine.stripChars r.text = s.lastText ∧
      now - s.lastTime < debounceWindow cfg)) :
    processStep cfg s r now =
      { lastText := OCREngine.stripChars r.text
        lastTime := now
        statusText := OCREngine.stripChars r.text
        history := pushHistory cfg.maxHistory s.history
          ⟨now, OCREngine.stripChars r.text, r.engine, r.confidence⟩
        textQ := s.textQ ++ [OCREngine.stripChars r.text] } := by
  unfold processStep
  rw [if_neg (by simp [he]), if_neg hlen, if_neg hconf, if_neg hdeb]

theorem pushHistory_length_le (maxHistory : Nat) (h : List HistEntry)
    (e : HistEntry) (hle : h.length ≤ maxHistory) :
    (pushHistory maxHistory h e).length ≤ maxHistory := by
  unfold pushHistory
  split_ifs with hgt
  · simp only [List.length_tail, List.length_append, List.length_singleton]
    omega
  · simp only [List.length_append, List.length_singleton] at hgt ⊢
    omega

theorem foldl_pushHistory_length (maxHistory : Nat) (es : List HistEntry) :
    ∀ h : List HistEntry, h.length ≤ maxHistory →
      (es.foldl (pushHistory maxHistory) h).length ≤ maxHistory := by
  induction es with
  | nil => intro h hle; exact hle
  | cons e es ih =>
    intro h hle
    exact ih _ (pushHistory_length_le _ _ _ hle)

theorem tail_append_cons {α : Type} (h : List α) (e : α) (es : List α) :
    (h ++ [e]).tail ++ es = (h ++ e :: es).tail := by
  cases h <;> simp

theorem foldl_pushHistory_drop (maxHistory : Nat) (es : List HistEntry) :
    ∀ h : List HistEntry, h.length ≤ maxHistory →
      es.foldl (pushHistory maxHistory) h =
        (h ++ es).drop (h.length + es.length - maxHistory) := by
  induction es with
  | nil =>
    intro h hle
    have hz : h.length - maxHistory = 0 := Nat.sub_eq_zero_of_le hle
    simp [hz]
  | cons e es ih =>
    intro h hle
    have happ : (h ++ [e]).length = h.length + 1 := by
      rw [List.length_append, List.length_cons, List.length_nil]
    by_cases hfull : h.length < maxHistory
    · have hstep : pushHistory maxHistory h e = h ++ [e] := by
        unfold pushHistory
        rw [if_neg]
        rw [happ]
        omega
      rw [List.foldl_cons, hstep, ih (h ++ [e]) (by rw [happ]; omega)]
      have hl : (h ++ [e]) ++ es = h ++ e :: es := by simp
      have hi : (h ++ [e]).length + es.length - maxHistory
          = h.length + (e :: es).length - maxHistory := by
        rw [happ, List.length_cons]
        omega
      rw [hl, hi]
    · have hlen : h.length = maxHistory := by omega
      have hstep : pushHistory maxHistory h e = (h ++ [e]).tail := by
        unfold pushHistory
        rw [if_pos]
        rw [happ]
        omega
      have htail : (h ++ [e]).tail.length = h.length := by
        rw [List.length_tail, happ]
        omega
      have htl : (h ++ [e]).tail.length ≤ maxHistory := by rw [htail]; omega
      rw [List.foldl_cons, hstep, ih ((h ++ [e]).tail) htl, tail_append_cons]
      have hj : (h ++ [e]).tail.length + es.length - maxHistory = es.length := by
        rw [htail, hlen]
        omega
      have hk : h.length + (e :: es).length - maxHistory = es.length + 1 := by
        rw [hlen, List.length_cons]
        omega
      rw [hj, hk, List.drop_tail]

/-- C3: a recognized text equal to the immediately preceding accepted text
arriving within the debounce window is suppressed — the state is unchanged,
so no history entry is written and nothing is pushed onto the speech queue; a
repeat arriving after the window has elapsed is accepted; and submitting
identical (plausible, confident) text twice within the window yields exactly
one history insertion and one text-queue push. -/
theorem debounce_suppresses_repeats :
    (∀ (cfg : RecognizedOptions) (s : ProcState) (r : OcrOutcome) (now : ℚ),
        OCREngine.stripChars r.text = s.lastText →
        now - s.lastTime < debounceWindow cfg →
        processStep cfg s r now = s) ∧
    (∀ (cfg : RecognizedOptions) (s : ProcState) (r : OcrOutcome) (now : ℚ),
        OCREngine.stripChars r.text = s.lastText →
        ¬ now - s.lastTime < debounceWindow cfg →
        (OCREngine.stripChars r.text).isEmpty = false →
        ¬ (OCREngine.stripChars r.text).length < cfg.minTextLen →
        ¬ r.confidence < cfg.minConfidence →
        (processStep cfg s r now).history =
          pushHistory cfg.maxHistory s.history
            ⟨now, OCREngine.stripChars r.text, r.engine, r.confidence⟩ ∧
        (processStep cfg s r now).textQ =
          s.textQ ++ [OCREngine.stripChars r.text]) ∧
    (∀ (cfg : RecognizedOptions) (s : ProcState) (r : OcrOutcome) (t1 t2 : ℚ),
        OCREngine.stripChars r.text ≠ s.lastText →
        (OCREngine.stripChars r.text).isEmpty = false →
        ¬ (OCREngine.stripChars r.text).length < cfg.minTextLen →
        ¬ r.confidence < cfg.minConfidence →
        t2 - t1 < debounceWindow cfg →
        processStep cfg (processStep cfg s r t1) r t2 = processStep cfg s r t1 ∧
        (processStep cfg s r t1).history =
          pushHistory cfg.maxHistory s.history
            ⟨t1, OCREngine.stripChars r.text, r.engine, r.confidence⟩ ∧
        (processStep cfg s r t1).textQ =
          s.textQ ++ [OCREngine.stripChars r.text]) := by
  refine ⟨processStep_suppress, ?_, ?_⟩
  · intro cfg s r now h1 h2 he hlen hconf
    rw [processStep_accept cfg s r now he hlen hconf (by tauto)]
    exact ⟨rfl, rfl⟩
  · intro cfg s r t1 t2 hne he hlen hconf hwin
    have hacc := processStep_accept cfg s r t1 he hlen hconf (by tauto)
    refine ⟨?_, by rw [hacc], by rw [hacc]⟩
    exact processStep_suppress cfg (processStep cfg s r t1) r t2
      (by rw [hacc]) (by rw [hacc]; exact hwin)

/-- Concrete configuration used by the `debounce_suppresses_repeats`
witness. -/
def cfg3 : RecognizedOptions :=
  { captureInterval := 1/10, minConfidence := 2/5, minTextLen := 2,
    debounceWindow := 3/2, maxHistory := 50 }

/-- Concrete recognition-stage state used by the
`debounce_suppresses_repeats` witness. -/
def s3 : ProcState :=
  { lastText := [], lastTime := 0, statusText := [], history := [], textQ := [] }

/-- Concrete OCR outcome used by the `debounce_suppresses_repeats` witness. -/
def r3 : OcrOutcome :=
  { text := ['h', 'i'], engine := ['t'], confidence := 1 }

/-- Witness for `debounce_suppresses_repeats`: submitting "hi" at times 10
and 11 (1 s apart, inside the 1.5 s window) leaves the second submission
suppressed and the queue grown by exactly one entry. -/
theorem debounce_suppresses_repeats_witness :
    processStep cfg3 (processStep cfg3 s3 r3 10) r3 11
        = processStep cfg3 s3 r3 10 ∧
    (processStep cfg3 s3 r3 10).textQ = s3.textQ ++ [['h', 'i']] := by
  have h := debounce_suppresses_repeats.2.2 cfg3 s3 r3 10 11
    (by decide) (by decide) (by decide) (by norm_num [r3, cfg3])
    (by norm_num [debounceWindow])
  exact ⟨h.1, h.2.2⟩

/-- C4: after any sequence of accepted insertions the history length never
exceeds `max_history`; at capacity the oldest entry is evicted by the
insertion; and inserting `max_history + 5` entries into an empty history
leaves exactly the last `max_history` of them, the oldest 5 evicted in
insertion order. -/
theorem history_bounded :
    (∀ (maxHistory : Nat) (h es : List HistEntry),
        h.length ≤ maxHistory →
        (es.foldl (pushHistory maxHistory) h).length ≤ maxHistory) ∧
    (∀ (maxHistory : Nat) (h : List HistEntry) (e : HistEntry),
        h.length = maxHistory →
        pushHistory maxHistory h e = (h ++ [e]).tail) ∧
    (∀ (maxHistory : Nat) (es : List HistEntry),
        es.length = maxHistory + 5 →
        es.foldl (pushHistory maxHistory) [] = es.drop 5) := by
  refine ⟨?_, ?_, ?_⟩
  · intro maxHistory h es hle
    exact foldl_pushHistory_length maxHistory es h hle
  · intro maxHistory h e hlen
    unfold pushHistory
    rw [if_pos]
    simp only [List.length_append, List.length_singleton]
    omega
  · intro maxHistory es hlen
    rw [foldl_pushHistory_drop maxHistory es [] (by simp)]
    simp only [List.nil_append, List.length_nil, Nat.zero_add, hlen]
    congr 1
    omega

/-- Concrete history entry used by the `history_bounded` witness. -/
def e4 : HistEntry := { ts := 0, text := ['x'], engine := ['t'], confidence := 1 }

/-- Witness for `history_bounded`: with `max_history = 1`, inserting six
entries into an empty history leaves only the last one. -/
theorem history_bounded_witness :
    (List.replicate 6 e4).foldl (pushHistory 1) []
      = (List.replicate 6 e4).drop 5 :=
  history_bounded.2.2 1 (List.replicate 6 e4) (by decide)

/-- Concrete configuration with a configured debounce window of 3 s, used to
refute the claim that the suppression threshold follows the configured
value. -/
def cfg7 : RecognizedOptions :=
  { captureInterval := 1/10, minConfidence := 0, minTextLen := 1,
    debounceWindow := 3, maxHistory := 50 }

/-- Concrete recognition-stage state whose last accepted text is "hi" at
time 0. -/
def s7 : ProcState :=
  { lastText := ['h', 'i'], lastTime := 0, statusText := ['h', 'i'],
    history := [], textQ := [] }

/-- Concrete OCR outcome repeating the text "hi". -/
def r7 : OcrOutcome :=
  { text := ['h', 'i'], engine := ['t'], confidence := 1 }

/-- Counterexample to C7: with a configured debounce window of 3 s, a repeat
of the last accepted text arriving 2 s later — inside the configured window,
so the claim requires suppression — is accepted by the process loop (the
state changes), because the code compares against the hard-coded 1.5 s. -/
theorem debounce_window_not_configured :
    OCREngine.stripChars r7.text = s7.lastText ∧
    (2 : ℚ) - s7.lastTime < cfg7.debounceWindow ∧
    processStep cfg7 s7 r7 2 ≠ s7 := by
  refine ⟨by decide, by norm_num [s7, cfg7], ?_⟩
  have hacc := processStep_accept cfg7 s7 r7 2 (by decide) (by decide)
    (by norm_num [r7, cfg7])
    (by
      rintro ⟨-, hc⟩
      rw [debounceWindow] at hc
      norm_num [s7] at hc)
  rw [hacc]
  intro heq
  have hq := congrArg ProcState.textQ heq
  simp [s7] at hq

/-- C7 amended: the suppression threshold of the recognition stage is the
fixed constant 1.5 s, not the externally configured debounce-window value:
the process loop behaves identically for every configured value, and a
repeat that passes the content gates is suppressed exactly when it arrives
within 1.5 s of the last acceptance. -/
theorem debounce_window_fixed :
    (∀ (cfg : RecognizedOptions) (d : ℚ) (s : ProcState) (r : OcrOutcome)
        (now : ℚ),
        processStep { cfg with debounceWindow := d } s r now
          = processStep cfg s r now) ∧
    (∀ cfg : RecognizedOptions, debounceWindow cfg = 3/2) ∧
    (∀ (cfg : RecognizedOptions) (s : ProcState) (r : OcrOutcome) (now : ℚ),
        OCREngine.stripChars r.text = s.lastText →
        (OCREngine.stripChars r.text).isEmpty = false →
        ¬ (OCREngine.stripChars r.text).length < cfg.minTextLen →
        ¬ r.confidence < cfg.minConfidence →
        (processStep cfg s r now = s ↔ now - s.lastTime < 3/2)) := by
  refine ⟨fun cfg d s r now => rfl, fun cfg => rfl, ?_⟩
  intro cfg s r now h1 he hlen hconf
  constructor
  · intro hs
    by_contra hnot
    have hacc := processStep_accept cfg s r now he hlen hconf
      (by intro hc; exact hnot (by simpa [debounceWindow] using hc.2))
    rw [hacc] at hs
    have := congrArg ProcState.textQ hs
    simp only at this
    have hlenq := congrArg List.length this
    simp only [List.length_append, List.length_singleton] at hlenq
    omega
  · intro hwin
    exact processStep_suppress cfg s r now h1 (by simpa [debounceWindow] using hwin)

/-- Witness for `debounce_window_fixed`: at the concrete repeat input, the
step is a no-op exactly when the repeat is within 1.5 s; here it arrived 2 s
later, so the state changed. -/
theorem debounce_window_fixed_witness :
    processStep cfg7 s7 r7 2 = s7 ↔ (2 : ℚ) - s7.lastTime < 3/2 :=
  debounce_window_fixed.2.2 cfg7 s7 r7 2 (by decide) (by decide)
    (by decide) (by norm_num [r7, cfg7])

/-- Outcome flags of one run of the capture stage: whether the stage cleared
the shared running flag (the fatal path of src/core/pipeline.py:80-83) and
whether `cap.release()` was reached (src/core/pipeline.py:105). -/
structure CaptureOutcome where
  clearedRunning : Bool
  released : Bool
deriving DecidableEq

/-- Observation of one iteration of the capture loop: either `cap.read()`
failed (retried after a brief pause), or it returned a frame at wall-clock
time `now`; frames are identified by their capture timestamps. -/
inductive ReadObs where
  | fail
  | frame (now : ℚ)
deriving DecidableEq

/-- Capture-loop bookkeeping: the time of the last push and the single-slot
frame queue contents. -/
structure CapState where
  lastPush : ℚ
  slot : Option ℚ
deriving DecidableEq

/-- Effective throttle interval of the capture stage, translated from
`interval = max(0.05, float(self.cfg["ocr"].get("capture_interval", 0.1)))`
(src/core/pipeline.py:67): a missing value defaults to 0.1, and the result
is clamped from below at 0.05. -/
def effectiveCaptureInterval (configured : Option ℚ) : ℚ :=
  max (1/20) (configured.getD (1/10))

/-- One iteration of the capture loop body (src/core/pipeline.py:85-103): a
failed read changes nothing (brief pause, retry); a frame arriving less than
the throttle interval after the last push is discarded; otherwise it is
pushed into the single-slot queue, overwriting any unread frame. -/
def capIterate (interval : ℚ) (s : CapState) (obs : ReadObs) : CapState :=
  match obs with
  | .fail => s
  | .frame now =>
    if now - s.lastPush < interval then s
    else { lastPush := now, slot := some now }

/-- A full run of the capture stage (src/core/pipeline.py:64-105): when the
source fails to open, the stage clears the shared running flag and returns
before the `cap.release()` line; otherwise it folds the loop body over the
iterations observed until the running flag goes false and then releases the
source. -/
def captureRun (configured : Option ℚ) (opened : Bool)
    (obss : List ReadObs) : CapState × CaptureOutcome :=
  if opened then
    (obss.foldl (capIterate (effectiveCaptureInterval configured))
        { lastPush := 0, slot := none },
      { clearedRunning := false, released := true })
  else
    ({ lastPush := 0, slot := none },
      { clearedRunning := true, released := false })

/-- Counterexample to C5: on the fatal path where the frame source could not
be opened, the capture stage clears the shared running flag and exits
without releasing the source — `return` at src/core/pipeline.py:83 precedes
the `cap.release()` at line 105. -/
theorem capture_fatal_no_release :
    (captureRun none false []).2.clearedRunning = true ∧
    (captureRun none false []).2.released = false :=
  ⟨rfl, rfl⟩

/-- C5 amended: on every exit of the Capture stage where the frame source
opened, the source is released; on the fatal open-failure path the stage
clears the shared running flag and exits without releasing the source. -/
theorem capture_release_on_exit :
    (∀ (configured : Option ℚ) (obss : List ReadObs),
        (captureRun configured true obss).2.released = true) ∧
    (∀ (configured : Option ℚ) (obss : List ReadObs),
        (captureRun configured false obss).2 =
          { clearedRunning := true, released := false }) := by
  constructor
  · intro configured obss
    simp [captureRun]
  · intro configured obss
    simp [captureRun]

/-- C10: the effective throttle interval of the capture stage equals
max(0.05, configured value); a configured value below 0.05 is silently
clamped up to 0.05, one at least 0.05 is used as supplied, and the loop
discards any frame arriving within this interval of the previous push. -/
theorem capture_interval_clamped :
    (∀ q : ℚ, effectiveCaptureInterval (some q) = max (1/20) q) ∧
    (∀ q : ℚ, q < 1/20 → effectiveCaptureInterval (some q) = 1/20) ∧
    (∀ q : ℚ, 1/20 ≤ q → effectiveCaptureInterval (some q) = q) ∧
    (∀ (configured : Option ℚ) (s : CapState) (now : ℚ),
        now - s.lastPush < effectiveCaptureInterval configured →
        capIterate (effectiveCaptureInterval configured) s (.frame now) = s) := by
  refine ⟨fun q => rfl, ?_, ?_, ?_⟩
  · intro q h
    unfold effectiveCaptureInterval
    exact max_eq_left (le_of_lt h)
  · intro q h
    unfold effectiveCaptureInterval
    exact max_eq_right h
  · intro configured s now h
    simp only [capIterate]
    rw [if_pos h]

/-- Witness for `capture_interval_clamped`: a configured interval of 0.01 is
clamped to 0.05, and one of 0.2 is kept. -/
theorem capture_interval_clamped_witness :
    effectiveCaptureInterval (some (1/100)) = 1/20 ∧
    effectiveCaptureInterval (some (1/5)) = 1/5 :=
  ⟨capture_interval_clamped.2.1 (1/100) (by norm_num),
    capture_interval_clamped.2.2.1 (1/5) (by norm_num)⟩

/-- Names of the three stage workers spawned by `start`
(src/core/pipeline.py:31-34). -/
def workerNames : List (List Char) :=
  [['c','a','p','t','u','r','e'], ['p','r','o','c','e','s','s'],
    ['t','t','s']]

/-- Controller state: the shared running flag, the spawned worker list and
the two queues; items of both queues are `Option` values, `none` standing
for the shutdown sentinel (src/core/pipeline.py:19-25). -/
structure PipeState where
  running : Bool
  threads : List (List Char)
  frameQ : List (Option ℚ)
  textQ : List (Option (List Char))
deriving DecidableEq

/-- Lifecycle `start`, translated from src/core/pipeline.py:27-37: a no-op
when the running flag is already set; otherwise it sets the flag and
replaces the worker list with the three freshly spawned stage workers. -/
def start (s : PipeState) : PipeState :=
  if s.running then s
  else { s with running := true, threads := workerNames }

/-- Bounded-queue `put` with the `queue.Full` overflow caught, as in `stop`
(src/core/pipeline.py:41-48): on a full queue the sentinel is simply not
enqueued. -/
def putSentinel {α : Type} (capacity : Nat) (q : List (Option α)) :
    List (Option α) :=
  if capacity ≤ q.length then q else q ++ [none]

/-- Lifecycle `stop`, translated from src/core/pipeline.py:39-51: clears the
running flag and injects a `none` sentinel into each queue (the capacity-one
frame queue via the caught-overflow put, the unbounded text queue
unconditionally); joining the workers with a bounded timeout leaves the
modelled state unchanged. -/
def stop (s : PipeState) : PipeState :=
  { s with running := false
           frameQ := putSentinel 1 s.frameQ
           textQ := s.textQ ++ [none] }

theorem start_of_running {s : PipeState} (h : s.running = true) :
    start s = s := by
  unfold start
  rw [if_pos h]

theorem start_running (s : PipeState) : (start s).running = true := by
  unfold start
  split_ifs with h
  · exact h
  · rfl

/-- C8: `start` is idempotent — a no-op while already running; a second call
changes nothing, and the result of starting a stopped pipeline carries
exactly one set of three distinct live workers. -/
theorem start_idempotent :
    (∀ s : PipeState, s.running = true → start s = s) ∧
    (∀ s : PipeState, start (start s) = start s) ∧
    (∀ s : PipeState, s.running = false →
        (start (start s)).threads = workerNames) ∧
    workerNames.length = 3 ∧ workerNames.Nodup := by
  refine ⟨fun s h => start_of_running h,
    fun s => start_of_running (start_running s), ?_, rfl, by decide⟩
  intro s h
  rw [start_of_running (start_running s)]
  unfold start
  rw [if_neg (by simp [h])]

/-- Stopped controller state with empty queues, used for the C8 and C9
concrete instances. -/
def stoppedState : PipeState :=
  { running := false, threads := [], frameQ := [], textQ := [] }

/-- Witness for `start_idempotent`: starting the stopped pipeline twice
leaves exactly the three workers. -/
theorem start_idempotent_witness :
    (start (start stoppedState)).threads = workerNames :=
  start_idempotent.2.2.1 stoppedState rfl

/-- Counterexample to C9: calling `stop` on the Stopped pipeline with empty
queues changes the state — a `none` sentinel is appended to the text queue
(and to the empty frame queue), so the queues are not unchanged. -/
theorem stop_on_stopped_changes_queues :
    stoppedState.running = false ∧ stop stoppedState ≠ stoppedState := by
  refine ⟨rfl, ?_⟩
  intro h
  have hq := congrArg PipeState.textQ h
  simp [stop, stoppedState] at hq

/-- C9 amended: `stop` on a Stopped pipeline raises no failure (both queue
puts have their overflow caught, so `stop` is a total state transformer) and
leaves the running flag and the workers unchanged, but appends a `none`
sentinel to the text queue and, when there is room, to the frame queue. -/
theorem stop_while_stopped :
    ∀ s : PipeState, s.running = false →
      stop s = { s with frameQ := putSentinel 1 s.frameQ
                        textQ := s.textQ ++ [none] } ∧
      (stop s).running = s.running ∧
      (stop s).threads = s.threads := by
  intro s h
  refine ⟨?_, ?_, rfl⟩
  · unfold stop
    rw [h]
  · unfold stop
    rw [h]

/-- Witness for `stop_while_stopped`: stopping the already-stopped pipeline
leaves the running flag false and the worker list unchanged. -/
theorem stop_while_stopped_witness :
    (stop stoppedState).running = stoppedState.running ∧
    (stop stoppedState).threads = stoppedState.threads :=
  (stop_while_stopped stoppedState rfl).2

end Pipeline

namespace TTSEngine

/-- Outcome of the primary-backend `try` block of `speak`
(src/core/tts_engine.py:57-75): the block either raises — any exception
during synthesis or playback escaping it — or returns an audio file path, a
sample buffer, or an unexpected type. -/
inductive PrimaryOutcome where
  | raises
  | returnsPath
  | returnsBuffer
  | returnsOther
deriving DecidableEq

/-- Observable result of `speak` (src/core/tts_engine.py:54-77): an
immediate return on empty text; primary synthesis and playback; the espeak
fallback carrying the text and the speed, volume and optional voice
arguments passed to `_espeak`; or the logged warning on an unexpected
synthesis return type. -/
inductive SpeakResult where
  | skippedEmpty
  | primaryPlayback
  | fallback (text : List Char) (speed volume : ℚ) (voice : Option (List Char))
  | warnedUnexpected
deriving DecidableEq

/-- The `speak` dispatch, translated from `TTSEngine.speak`
(src/core/tts_engine.py:54-77): empty text returns immediately; with the
primary backend present, its returned path or buffer is played and any
escaping exception falls through to `_espeak(text, speed, volume, voice)`;
with the primary backend absent, `_espeak` is called directly with the same
arguments. -/
def speak (coquiPresent : Bool) (outcome : PrimaryOutcome) (text : List Char)
    (voice : Option (List Char)) (speed volume : ℚ) : SpeakResult :=
  if text.isEmpty then .skippedEmpty
  else if coquiPresent then
    match outcome with
    | .raises => .fallback text speed volume voice
    | .returnsPath => .primaryPlayback
    | .returnsBuffer => .primaryPlayback
    | .returnsOther => .warnedUnexpected
  else .fallback text speed volume voice

/-- C6: for every non-empty text, when the primary speech backend raises an
exception during synthesis or playback, or is absent, the speech stage falls
back to the secondary OS-level backend, passing through the speed, volume
and optional voice parameters. -/
theorem speak_falls_back :
    ∀ (coquiPresent : Bool) (outcome : PrimaryOutcome) (text : List Char)
      (voice : Option (List Char)) (speed volume : ℚ),
      text.isEmpty = false →
      (coquiPresent = false ∨ outcome = PrimaryOutcome.raises) →
      speak coquiPresent outcome text voice speed volume
        = SpeakResult.fallback text speed volume voice := by
  intro coquiPresent outcome text voice speed volume he hor
  unfold speak
  rw [if_neg (by simp [he])]
  rcases hor with h | h
  · subst h
    rfl
  · subst h
    cases coquiPresent <;> rfl

/-- Witness for `speak_falls_back`: with the primary backend absent, "hi" is
spoken through the fallback with its speed, volume and voice arguments. -/
theorem speak_falls_back_witness :
    speak false PrimaryOutcome.returnsBuffer ['h','i'] none 1 (9/10)
      = SpeakResult.fallback ['h','i'] 1 (9/10) none :=
  speak_falls_back false PrimaryOutcome.returnsBuffer ['h','i'] none 1 (9/10)
    (by decide) (Or.inl rfl)

end TTSEngine
